import Mathlib

/-!
Verification development for the swarm-visualization core of the repository
(`SwarmVisualization` in `src/frontend/src/components/TaskHistory.jsx`).

The component keeps three pieces of mutable state across React effect runs:
  * `agentMeshesRef.current` : a string-keyed object mapping agent ids to
    persistent THREE.Mesh objects (the registry of visual agent objects);
  * `transactionEdgesRef.current` : an array of tracked transaction-edge
    records `{line, particles, timestamp, txTimestamp, from}`;
  * `selectedAgent` : React state holding the last picked agent snapshot.

We embed the state as pure data and each effect / handler as a pure function
on it.  Rendering-only floating-point computations (the `Math.cos`/`Math.sin`
projection of a ring position to x/z coordinates, the Catmull-Rom tube
geometry of an edge) are not re-proved over the reals; instead a position is
kept as the pair (ring radius, ring angle) with the angle measured in turns
(radians divided by 2*pi), which determines the rendered coordinates, and the
time-varying `Math.sin(Date.now() * c)` pulse samples are passed to the update
pass as rational parameters `s1` (the `0.003` wave) and `s2` (the `0.005`
wave, which the source evaluates twice in the same pass for the emissive
intensity and the ring opacity).  Colors are kept as the numeric literals of
the source.  JavaScript numbers are modelled as rationals.
-/

namespace Swarm

/-- An agent snapshot as delivered inside `swarmData.agents.coordinators` /
`.solvers`.  Fields the visualization reads.  Numeric fields that may be
absent are `Option ℚ` (`none` = absent/undefined); the source types them
numeric when present. -/
structure Agent where
  agent_id : String
  role : String
  status : String
  active_tasks : Option ℚ
  reputation : Option ℚ
  specialization : Option String
  deriving Repr, DecidableEq

/-- A persistent visual agent object: the THREE.Mesh created once per agent
id, with the mutable display fields the update pass writes
(`userData.agentData`, `scale`, `material.emissiveIntensity`, the glow ring's
`material.opacity`) and the immutable creation-time fields (position on its
ring, body color, ring color, `userData.role`). -/
structure Mesh where
  agentId : String
  roleAtCreation : String
  color : ℕ
  ringColor : ℕ
  posRadius : ℚ
  posAngle : ℚ
  agentData : Agent
  scale : ℚ
  emissiveIntensity : ℚ
  ringOpacity : ℚ
  deriving Repr, DecidableEq

/-- `agentMeshesRef.current`: a plain JS object keyed by agent id.  String
keys keep insertion order (agent ids are non-integer-like strings), so an
association list with insert-at-end for new keys and in-place update for
existing keys is a faithful model. -/
abbrev Registry := List (String × Mesh)

def lookupReg : Registry → String → Option Mesh
  | [], _ => none
  | (k, m) :: rest, key => if k = key then some m else lookupReg rest key

def setReg : Registry → String → Mesh → Registry
  | [], key, m => [(key, m)]
  | (k, m0) :: rest, key, m =>
      if k = key then (k, m) :: rest else (k, m0) :: setReg rest key m

def containsKey (reg : Registry) (key : String) : Bool :=
  (lookupReg reg key).isSome

/-- Ring color from specialization (creation branch, lines 402-405):
hash_cracking purple, sorting orange, data_search blue, default green. -/
def specColor (spec : Option String) : ℕ :=
  match spec with
  | some s =>
      if s = "hash_cracking" then 0x9d00ff
      else if s = "sorting" then 0xffaa00
      else if s = "data_search" then 0x00aaff
      else 0x00ff88
  | none => 0x00ff88

/-- `findIndex(a => a.agent_id === agentId)` over a role group: first index
or -1. -/
def findIdxT (l : List Agent) (id : String) : ℤ :=
  match l.findIdx? (fun a => a.agent_id = id) with
  | some n => (n : ℤ)
  | none => -1

/-- The creation branch of the agent update effect (lines 371-437) given the
already-computed ordinal index `idx` and group size `cnt`.  The ring angle
`(agentIndex / agentsInRole) * Math.PI * 2 + angleOffset` is stored in turns:
`idx / cnt` plus an offset of 0 for coordinators and 1/8 turn (`Math.PI / 4`)
for the solver branch.  The mesh material starts with `emissiveIntensity`
0.3 and the ring with opacity 0; both are overwritten later in the same
pass. -/
def createMeshCore (a : Agent) (idx : ℤ) (cnt : ℕ) : Mesh :=
  let isCoord := a.role = "coordinator"
  { agentId := a.agent_id
    roleAtCreation := a.role
    color := if isCoord then 0x00ff88 else 0x0088ff
    ringColor := if isCoord then 0x00ff88 else specColor a.specialization
    posRadius := if isCoord then 15 else 25
    posAngle := (idx : ℚ) / (cnt : ℚ) + (if isCoord then 0 else 1/8)
    agentData := a
    scale := 1
    emissiveIntensity := 3/10
    ringOpacity := 0 }

/-- Creation with the index/size taken from the current snapshot's role
group, exactly as lines 383-390 compute them. -/
def createMesh (a : Agent) (coordinators solvers : List Agent) : Mesh :=
  if a.role = "coordinator" then
    createMeshCore a (findIdxT coordinators a.agent_id) coordinators.length
  else
    createMeshCore a (findIdxT solvers a.agent_id) solvers.length

/-- `agent.active_tasks > 0 || agent.status === 'working'` (line 444).  A
missing `active_tasks` compares false. -/
def isActiveAgent (a : Agent) : Bool :=
  (match a.active_tasks with
   | some q => decide (0 < q)
   | none => false) || a.status = "working"

/-- `agent.reputation ? Math.max(0.8, Math.min(2.0, agent.reputation / 100))
: 1.0` (line 445); a reputation of 0 is falsy and yields 1.0. -/
def reputationScale (a : Agent) : ℚ :=
  match a.reputation with
  | some q => if q = 0 then 1 else max (4/5) (min 2 (q / 100))
  | none => 1

/-- The activity/reputation part of the update pass (lines 440-462): store
the latest snapshot in `userData.agentData`, then set scale, emissive
intensity and ring opacity from the activity predicate.  `s1` and `s2` are
the two sine samples of this pass. -/
def updateMesh (s1 s2 : ℚ) (a : Agent) (m : Mesh) : Mesh :=
  let act := isActiveAgent a
  let repScale := reputationScale a
  { m with
    agentData := a
    scale := if act then (1 + s1 * (3/20)) * repScale else 1 * repScale
    emissiveIntensity := if act then 2/5 + s2 * (1/5) else 1/10
    ringOpacity := if act then 3/10 + s2 * (1/5) else 0 }

/-- The selection highlight (lines 465-470): if `selectedAgent` is set and
its `agent_id` matches this mesh, force emissive intensity and ring opacity
to 0.8. -/
def applyOverride (sel : Option Agent) (agentId : String) (m : Mesh) : Mesh :=
  match sel with
  | some s =>
      if s.agent_id = agentId then
        { m with emissiveIntensity := 4/5, ringOpacity := 4/5 }
      else m
  | none => m

/-- One iteration of the `allAgents.forEach` body (lines 367-471): look the
id up in the registry, create the mesh on a miss (inserting it), then apply
the common mutable-field updates and the selection highlight to that same
object. -/
def processAgent (s1 s2 : ℚ) (sel : Option Agent)
    (coordinators solvers : List Agent) (reg : Registry) (a : Agent) :
    Registry :=
  let mesh0 := (lookupReg reg a.agent_id).getD (createMesh a coordinators solvers)
  setReg reg a.agent_id (applyOverride sel a.agent_id (updateMesh s1 s2 a mesh0))

/-- A transaction event from `swarmData.transactions`. -/
structure Tx where
  from_ : String
  msg_type : String
  timestamp : ℤ
  deriving Repr, DecidableEq

/-- One well-shaped incoming snapshot (`swarmData`): the agent roster
partitioned by role plus the transaction list.  (The untyped guard paths of
the agent effect are modelled separately below on raw JS values.) -/
structure Snapshot where
  coordinators : List Agent
  solvers : List Agent
  transactions : List Tx
  deriving Repr, DecidableEq

/-- The agent update effect (lines 357-472) on a well-shaped snapshot:
`[...coordinators, ...solvers].forEach(processAgent)`. -/
def reconcile (s1 s2 : ℚ) (sel : Option Agent) (snap : Snapshot)
    (reg : Registry) : Registry :=
  (snap.coordinators ++ snap.solvers).foldl
    (processAgent s1 s2 sel snap.coordinators snap.solvers) reg

/-- A tracked transaction-edge record (lines 579-585) together with the
mutable display opacities of its tube line and its traveling particle.  The
tube material is created with opacity 0.7 and the particle material with 0.8
(lines 545-560); `timestamp` is `Date.now()` at creation, `txTimestamp` is
`tx.timestamp * 1000` and `from_` the sender id.  The particle's own
progress animation runs in a separate callback chain and does not affect the
tracked record. -/
structure Edge where
  color : ℕ
  opacity : ℚ
  particleOpacity : ℚ
  timestamp : ℤ
  txTimestamp : ℤ
  from_ : String
  deriving Repr, DecidableEq

/-- Edge color by message kind (lines 499-512). -/
def msgColor (t : String) : ℕ :=
  if t = "task_announcement" then 0x00ff88
  else if t = "task_bid" then 0x0088ff
  else if t = "solution_submission" then 0xff00ff
  else 0xffffff

/-- Target resolution (lines 514-527): a task announcement goes to every
registered mesh whose latest `agentData.role` is solver; any other kind goes
to every registered coordinator mesh other than the sender's own mesh.  The
source excludes the sender by object identity (`m !== fromMesh`); since
registry slots hold pairwise distinct objects and `fromMesh` is the slot at
key `tx.from`, excluding the key is the same test. -/
def targetMeshes (reg : Registry) (tx : Tx) : List Mesh :=
  if tx.msg_type = "task_announcement" then
    (reg.filter (fun p => p.2.agentData.role = "solver")).map Prod.snd
  else
    (reg.filter
      (fun p => p.2.agentData.role = "coordinator" && p.1 ≠ tx.from_)).map
      Prod.snd

/-- The tracked record pushed for one target (lines 579-585) together with
the initial material opacities (lines 545-560).  The per-target geometry
(the Catmull-Rom curve through source, elevated midpoint and target) is
render-only and carries no state the claims mention, so the records for the
several targets of one event differ only by that geometry. -/
def mkEdge (now : ℤ) (tx : Tx) : Edge :=
  { color := msgColor tx.msg_type
    opacity := 7/10
    particleOpacity := 4/5
    timestamp := now
    txTimestamp := tx.timestamp * 1000
    from_ := tx.from_ }

/-- One iteration of the transaction ingest loop (lines 484-587) at wall
clock `now`: skip if some tracked edge already carries the dedup key
`(tx.from, tx.timestamp * 1000)`; skip if the sender has no registered mesh;
otherwise push one edge record per resolved target. -/
def ingestOne (now : ℤ) (reg : Registry) (edges : List Edge) (tx : Tx) :
    List Edge :=
  let txTimestamp := tx.timestamp * 1000
  if edges.any (fun e => e.txTimestamp = txTimestamp && e.from_ = tx.from_) then
    edges
  else
    match lookupReg reg tx.from_ with
    | none => edges
    | some _ => edges ++ (targetMeshes reg tx).map (fun _t => mkEdge now tx)

/-- The transaction effect (lines 475-588): fold the ingest step over the
snapshot's transaction list. -/
def ingest (now : ℤ) (reg : Registry) (txs : List Tx) (edges : List Edge) :
    List Edge :=
  txs.foldl (ingestOne now reg) edges

/-- `age > maxAge` with `maxAge = 3000` (lines 316-319). -/
def expiredB (now : ℤ) (e : Edge) : Bool :=
  decide (3000 < now - e.timestamp)

/-- The fade branch of the per-frame sweep (lines 324-329):
`opacity = 1 - age / 3000`, particle opacity `opacity * 0.8`. -/
def fadeEdge (now : ℤ) (e : Edge) : Edge :=
  let opacity : ℚ := 1 - ((now - e.timestamp : ℤ) : ℚ) / 3000
  { e with opacity := opacity, particleOpacity := opacity * (4/5) }

/-- The body of `transactionEdgesRef.current.forEach((edge, index) => ...)`
with `splice(index, 1)` inside (lines 315-331), following the JS `forEach`
contract: the element count is read once at the start (`fuel`), the visit
index `k` advances by one each iteration regardless of splices, the element
at index `k` is re-read from the current array at visit time, and indices at
or beyond the current length are skipped (the array only shrinks, so once
`k` passes the end the loop does nothing more).  Removing at index `k`
shifts later elements down, so the element after a removed one is never
visited in this sweep. -/
def sweepAux (now : ℤ) : ℕ → ℕ → List Edge → List Edge
  | _, 0, l => l
  | k, fuel + 1, l =>
      if h : k < l.length then
        let e := l.get ⟨k, h⟩
        if expiredB now e then sweepAux now (k + 1) fuel (l.eraseIdx k)
        else sweepAux now (k + 1) fuel (l.set k (fadeEdge now e))
      else l

/-- The per-frame expiry/fade sweep over the tracked edges, as run by the
animation loop at wall clock `now`.  Every `splice` in the source is paired
with removing the edge's line and particle from the scene, so membership in
the tracked list coincides with scene membership for edges. -/
def sweep (now : ℤ) (l : List Edge) : List Edge :=
  sweepAux now 0 l.length l

/-- The click handler (lines 274-298) after the raycast: `hit` is the first
registry mesh struck by the pointer ray, or `none` when the ray misses every
registry mesh (in particular whenever the registry is empty, since the
raycast runs only over `Object.values(agentMeshesRef.current)`).  On a hit
the stored `userData.agentData` becomes the selection; on a miss the
selection is cleared.  The source guards `if (agentData)`; every registered
mesh has `agentData` set by the update pass that created it, and an object
is always truthy, so the guard passes on every hit. -/
def handleClick (_reg : Registry) (hit : Option Mesh) (_sel : Option Agent) :
    Option Agent :=
  match hit with
  | some m => some m.agentData
  | none => none

/-! ### Untyped snapshot values

The agent update effect validates its input only with
`if (!sceneRef.current || !swarmData?.agents) return;` and the `|| []`
defaults on the two role lists; anything deeper is processed dynamically.
To settle the error-handling claims we re-run the effect over raw
JavaScript values.  `JVal` covers the value shapes the effect can meet
(NaN and exotic objects with custom iterators/toString are outside the
modelled corner; the spec types ids as strings and the numeric fields as
numbers).  The scene is assumed initialized (`sceneRef.current` set). -/

inductive JVal where
  | undefined : JVal
  | null : JVal
  | bool : Bool → JVal
  | num : ℚ → JVal
  | str : String → JVal
  | arr : List JVal → JVal
  | obj : List (String × JVal) → JVal
  deriving Repr

/-- JavaScript truthiness for the modelled values. -/
def truthy : JVal → Bool
  | .undefined => false
  | .null => false
  | .bool b => b
  | .num q => decide (q ≠ 0)
  | .str s => decide (s ≠ "")
  | .arr _ => true
  | .obj _ => true

inductive JsError where
  | typeError : JsError
  deriving Repr, DecidableEq

def objLookup : List (String × JVal) → String → JVal
  | [], _ => .undefined
  | (k, v) :: rest, key => if k = key then v else objLookup rest key

/-- Property read on a value already known not to be `null`/`undefined`:
objects look the key up, every other value yields `undefined` for the
property names the effect reads. -/
def getFieldD (v : JVal) (k : String) : JVal :=
  match v with
  | .obj l => objLookup l k
  | _ => .undefined

/-- JS property-key / string coercion of an agent id value.  Composite
values are collapsed to fixed tags (their element-wise JS rendering is not
reproduced); only malformed snapshots carry non-string ids. -/
def keyOf : JVal → String
  | .undefined => "undefined"
  | .null => "null"
  | .bool b => if b then "true" else "false"
  | .num q => if q.den = 1 then toString q.num else toString q
  | .str s => s
  | .arr _ => "[array]"
  | .obj _ => "[object Object]"

def strOr (v : JVal) (d : String) : String :=
  match v with
  | .str s => s
  | _ => d

def numOpt (v : JVal) : Option ℚ :=
  match v with
  | .num q => some q
  | _ => none

def strOpt (v : JVal) : Option String :=
  match v with
  | .str s => some s
  | _ => none

/-- Reading the agent fields the effect uses off a raw roster entry.  The
first member access (`agent.agent_id`, line 368) throws a TypeError when the
entry is `null`/`undefined`; otherwise missing fields default exactly as the
source's comparisons treat `undefined` (`undefined > 0` is false,
`undefined === 'working'` is false, `undefined` is falsy, an unrecognized
specialization keeps the default color). -/
def toAgentJS (v : JVal) : Except JsError Agent :=
  match v with
  | .undefined => .error .typeError
  | .null => .error .typeError
  | _ => .ok
      { agent_id := keyOf (getFieldD v "agent_id")
        role := strOr (getFieldD v "role") ""
        status := strOr (getFieldD v "status") ""
        active_tasks := numOpt (getFieldD v "active_tasks")
        reputation := numOpt (getFieldD v "reputation")
        specialization := strOpt (getFieldD v "specialization") }

/-- `findIndex(a => a.agent_id === agentId)` over the raw role list: the
member access inside the callback throws on a `null`/`undefined` entry
reached before a match. -/
def findIdxJs : List JVal → String → ℤ → Except JsError ℤ
  | [], _, _ => .ok (-1)
  | v :: rest, id, k =>
      match v with
      | .undefined => .error .typeError
      | .null => .error .typeError
      | _ =>
          if keyOf (getFieldD v "agent_id") = id then .ok k
          else findIdxJs rest id (k + 1)

/-- Array spread `[...]` of the defaulted role-list value: arrays spread to
their elements, strings to their characters, any other truthy value throws
(not iterable). -/
def spreadJs : JVal → Except JsError (List JVal)
  | .arr l => .ok l
  | .str s => .ok (s.toList.map (fun c => .str (String.mk [c])))
  | _ => .error .typeError

/-- One `forEach` body iteration over a raw roster entry.  Every throwing
access happens before the registry write at the end of the iteration, so an
iteration either completes its write or leaves the registry as it was. -/
def processAgentJS (s1 s2 : ℚ) (sel : Option Agent)
    (coordsJ solvsJ : List JVal) (reg : Registry) (v : JVal) :
    Except JsError Registry := do
  let a ← toAgentJS v
  let mesh0 ←
    match lookupReg reg a.agent_id with
    | some m => pure m
    | none =>
        if a.role = "coordinator" then do
          let idx ← findIdxJs coordsJ a.agent_id 0
          pure (createMeshCore a idx coordsJ.length)
        else do
          let idx ← findIdxJs solvsJ a.agent_id 0
          pure (createMeshCore a idx solvsJ.length)
  pure (setReg reg a.agent_id (applyOverride sel a.agent_id (updateMesh s1 s2 a mesh0)))

/-- Running the roster loop: a thrown TypeError aborts the remaining
iterations but the registry writes of completed iterations persist (the
registry lives in a ref that survives the exception). -/
def runAgentsJS (s1 s2 : ℚ) (sel : Option Agent)
    (coordsJ solvsJ : List JVal) :
    List JVal → Registry → Registry × Option JsError
  | [], reg => (reg, none)
  | v :: rest, reg =>
      match processAgentJS s1 s2 sel coordsJ solvsJ reg v with
      | .ok reg2 => runAgentsJS s1 s2 sel coordsJ solvsJ rest reg2
      | .error e => (reg, some e)

/-- `swarmData?.agents`: optional chaining yields `undefined` on a
`null`/`undefined` receiver, a property read otherwise. -/
def agentsField (swarmData : JVal) : JVal :=
  match swarmData with
  | .undefined => JVal.undefined
  | .null => JVal.undefined
  | v => getFieldD v "agents"

/-- The agent update effect (lines 357-472) on a raw `swarmData` value:
the `!swarmData?.agents` guard silently skips the pass, the role lists
default through `|| []`, the spreads build `allAgents`, and the loop runs
with exception semantics.  The result pairs the registry after the pass
with the uncaught error, if one was thrown. -/
def reconcileJS (s1 s2 : ℚ) (sel : Option Agent) (swarmData : JVal)
    (reg : Registry) : Registry × Option JsError :=
  if truthy (agentsField swarmData) = false then (reg, none)
  else
    let agentsV := agentsField swarmData
    let coordV := getFieldD agentsV "coordinators"
    let solvV := getFieldD agentsV "solvers"
    let coordsVal := if truthy coordV then coordV else .arr []
    let solvsVal := if truthy solvV then solvV else .arr []
    match spreadJs coordsVal, spreadJs solvsVal with
    | .ok lc, .ok ls => runAgentsJS s1 s2 sel lc ls (lc ++ ls) reg
    | _, _ => (reg, some .typeError)

/-! ### Derived notions used by the statements -/

/-- The creation-time part of a visual agent object: everything the update
pass never writes.  Two registry states hold "the same object" at a key
exactly when this part is unchanged (the source mutates the one THREE.Mesh
in place and only ever writes the mutable display fields after creation). -/
def Mesh.immut (m : Mesh) : String × String × ℕ × ℕ × ℚ × ℚ :=
  (m.agentId, m.roleAtCreation, m.color, m.ringColor, m.posRadius, m.posAngle)

def regKeys (reg : Registry) : List String :=
  reg.map Prod.fst

/-- The inputs of one agent-update pass: the two sine samples, the selection
state at the time the effect runs, and the snapshot it reconciles. -/
structure Pass where
  s1 : ℚ
  s2 : ℚ
  sel : Option Agent
  snap : Snapshot

/-- A whole session of successive reconciliation passes. -/
def applyPasses : List Pass → Registry → Registry
  | [], reg => reg
  | p :: rest, reg => applyPasses rest (reconcile p.s1 p.s2 p.sel p.snap reg)

/-- The mesh stored at `a.agent_id` after `a`'s own `forEach` iteration,
expressed against the registry as it stood when the iteration began. -/
def processedMesh (s1 s2 : ℚ) (sel : Option Agent)
    (coordinators solvers : List Agent) (reg : Registry) (a : Agent) : Mesh :=
  applyOverride sel a.agent_id
    (updateMesh s1 s2 a
      ((lookupReg reg a.agent_id).getD (createMesh a coordinators solvers)))

/-- A mesh displays the selection override's forced values: emissive
intensity 0.8 and ring opacity 0.8. -/
def carriesOverride (m : Mesh) : Bool :=
  m.emissiveIntensity = 4/5 && m.ringOpacity = 4/5

/-! ### Concrete fixtures for the scenario theorems -/

def agentA : Agent :=
  { agent_id := "A", role := "coordinator", status := "", active_tasks := none
    reputation := none, specialization := none }

def agentB : Agent :=
  { agent_id := "B", role := "coordinator", status := "", active_tasks := none
    reputation := none, specialization := none }

def solver1 : Agent :=
  { agent_id := "s1", role := "solver", status := "", active_tasks := none
    reputation := none, specialization := none }

def solver2 : Agent :=
  { agent_id := "s2", role := "solver", status := "", active_tasks := none
    reputation := none, specialization := none }

/-- A roster with coordinator `A` and two solvers. -/
def snapCS : Snapshot :=
  { coordinators := [agentA], solvers := [solver1, solver2], transactions := [] }

def regCS : Registry :=
  reconcile 0 0 none snapCS []

/-- Scenario 3's event: a task announcement from the known coordinator. -/
def txAnn : Tx :=
  { from_ := "A", msg_type := "task_announcement", timestamp := 100 }

/-- The edges created by ingesting `txAnn` at wall clock 1000. -/
def exEdges1 : List Edge :=
  ingestOne 1000 regCS [] txAnn

def exEdge : Edge :=
  { color := 0x00ff88, opacity := 7/10, particleOpacity := 4/5
    timestamp := 1000, txTimestamp := 100000, from_ := "A" }

/-- Rosters for the selection-override run: first `A` and `B`, then `B`
alone. -/
def snapAB : Snapshot :=
  { coordinators := [agentA, agentB], solvers := [], transactions := [] }

def snapB : Snapshot :=
  { coordinators := [agentB], solvers := [], transactions := [] }

/-- The selection-override run: reconcile `{A,B}` unselected; pick `A` (the
pick's selection change re-runs the update effect over the live snapshot);
roster shrinks to `{B}` while `A` is still selected; pick `B`. -/
def exReg1 : Registry := reconcile 0 0 none snapAB []
def exReg2 : Registry := reconcile 0 0 (some agentA) snapAB exReg1
def exReg3 : Registry := reconcile 0 0 (some agentA) snapB exReg2
def exReg4 : Registry := reconcile 0 0 (some agentB) snapB exReg3

/-- A raw roster entry for `c1`, and a structurally corrupt snapshot whose
coordinator list holds a valid entry followed by `null`. -/
def goodC1JS : JVal :=
  .obj [("agent_id", .str "c1"), ("role", .str "coordinator")]

def corruptSwarmData : JVal :=
  .obj [("agents", .obj
    [("coordinators", .arr [goodC1JS, .null]), ("solvers", .arr [])])]

/-- The visual object registered for `A` in `regCS` (the `getD` fallback is
never taken; the key is present). -/
def meshA : Mesh :=
  (lookupReg regCS "A").getD (createMeshCore agentA 0 1)

/-- The meshes held at keys `A` and `B` after the selection-override run
(`exReg4`), expressed through the registries in which their last update
happened: `A` was last updated by the pass over `snapAB` with `A` selected;
`B` by the pass over `snapB` with `B` selected. -/
def meshA4 : Mesh :=
  processedMesh 0 0 (some agentA) snapAB.coordinators snapAB.solvers exReg1 agentA

def meshB4 : Mesh :=
  processedMesh 0 0 (some agentB) snapB.coordinators snapB.solvers exReg3 agentB

/-! ### Registry lemmas -/

theorem lookupReg_setReg_self (reg : Registry) (k : String) (m : Mesh) :
    lookupReg (setReg reg k m) k = some m := by
  induction reg with
  | nil => simp [setReg, lookupReg]
  | cons p rest ih =>
      obtain ⟨k0, m0⟩ := p
      by_cases h : k0 = k
      · simp [setReg, lookupReg, h]
      · simp [setReg, lookupReg, h, ih]

theorem lookupReg_setReg_other (reg : Registry) (k k2 : String) (m : Mesh)
    (h : k2 ≠ k) :
    lookupReg (setReg reg k m) k2 = lookupReg reg k2 := by
  have h2 : ¬(k = k2) := fun e => h e.symm
  induction reg with
  | nil => simp [setReg, lookupReg, h2]
  | cons p rest ih =>
      obtain ⟨k0, m0⟩ := p
      by_cases h0 : k0 = k
      · simp [setReg, lookupReg, h0, h2]
      · simp [setReg, lookupReg, h0, ih]

theorem containsKey_lookupReg (reg : Registry) (k : String) :
    containsKey reg k = true ↔ ∃ m, lookupReg reg k = some m := by
  unfold containsKey
  cases h : lookupReg reg k <;> simp [Option.isSome, h]

theorem mem_regKeys_of_lookup (reg : Registry) (k : String)
    (h : containsKey reg k = true) : k ∈ regKeys reg := by
  induction reg with
  | nil => simp [containsKey, lookupReg, Option.isSome] at h
  | cons p rest ih =>
      obtain ⟨k0, m0⟩ := p
      by_cases h0 : k0 = k
      · simp [regKeys, h0]
      · simp only [containsKey, lookupReg, h0, if_false] at h
        simpa [regKeys] using Or.inr (by simpa [regKeys] using ih h)

theorem lookup_of_mem_regKeys (reg : Registry) (k : String)
    (h : k ∈ regKeys reg) : containsKey reg k = true := by
  induction reg with
  | nil => simp [regKeys] at h
  | cons p rest ih =>
      obtain ⟨k0, m0⟩ := p
      by_cases h0 : k0 = k
      · simp [containsKey, lookupReg, h0]
      · simp only [regKeys, List.map_cons, List.mem_cons] at h
        rcases h with h | h
        · exact absurd h.symm h0
        · simpa [containsKey, lookupReg, h0] using ih (by simpa [regKeys] using h)

theorem mem_regKeys_setReg (reg : Registry) (k x : String) (m : Mesh) :
    x ∈ regKeys (setReg reg k m) ↔ x ∈ regKeys reg ∨ x = k := by
  induction reg with
  | nil => simp [setReg, regKeys]
  | cons p rest ih =>
      obtain ⟨k0, m0⟩ := p
      by_cases h0 : k0 = k
      · simp only [setReg, if_pos h0, regKeys, List.map_cons, List.mem_cons]
        subst h0
        constructor
        · intro hx
          rcases hx with hx | hx
          · exact Or.inr hx
          · exact Or.inl (Or.inr hx)
        · intro hx
          rcases hx with (hx | hx) | hx
          · exact Or.inl hx
          · exact Or.inr hx
          · exact Or.inl hx
      · simp only [setReg, if_neg h0, regKeys, List.map_cons, List.mem_cons]
        rw [show (List.map Prod.fst (setReg rest k m)) = regKeys (setReg rest k m) from rfl]
        rw [ih]
        constructor
        · intro hx
          rcases hx with hx | hx | hx
          · exact Or.inl (Or.inl hx)
          · exact Or.inl (Or.inr hx)
          · exact Or.inr hx
        · intro hx
          rcases hx with (hx | hx) | hx
          · exact Or.inl hx
          · exact Or.inr (Or.inl hx)
          · exact Or.inr (Or.inr hx)

theorem nodup_regKeys_setReg (reg : Registry) (k : String) (m : Mesh)
    (h : (regKeys reg).Nodup) : (regKeys (setReg reg k m)).Nodup := by
  induction reg with
  | nil => simp [setReg, regKeys]
  | cons p rest ih =>
      obtain ⟨k0, m0⟩ := p
      simp only [regKeys, List.map_cons, List.nodup_cons] at h
      by_cases h0 : k0 = k
      · simp only [setReg, if_pos h0, regKeys, List.map_cons, List.nodup_cons]
        exact ⟨h.1, h.2⟩
      · simp only [setReg, if_neg h0, regKeys, List.map_cons, List.nodup_cons]
        refine ⟨?_, ih h.2⟩
        intro hmem
        rcases (mem_regKeys_setReg rest k k0 m).mp hmem with hin | heq
        · exact h.1 hin
        · exact h0 heq

theorem containsKey_setReg_mono (reg : Registry) (k k2 : String) (m : Mesh)
    (h : containsKey reg k2 = true) : containsKey (setReg reg k m) k2 = true := by
  by_cases hk : k2 = k
  · subst hk
    simp [containsKey, lookupReg_setReg_self]
  · simpa [containsKey, lookupReg_setReg_other reg k k2 m hk] using h

/-! ### Lemmas about one `forEach` iteration of the agent update pass -/

theorem updateMesh_immut (s1 s2 : ℚ) (a : Agent) (m : Mesh) :
    (updateMesh s1 s2 a m).immut = m.immut := rfl

theorem applyOverride_immut (sel : Option Agent) (id : String) (m : Mesh) :
    (applyOverride sel id m).immut = m.immut := by
  cases sel with
  | none => rfl
  | some s =>
      simp only [applyOverride]
      by_cases h : s.agent_id = id <;> simp [h, Mesh.immut]

theorem processAgent_lookup_self (s1 s2 : ℚ) (sel : Option Agent)
    (coordinators solvers : List Agent) (reg : Registry) (a : Agent) :
    lookupReg (processAgent s1 s2 sel coordinators solvers reg a) a.agent_id
      = some (processedMesh s1 s2 sel coordinators solvers reg a) := by
  simp [processAgent, processedMesh, lookupReg_setReg_self]

theorem processAgent_lookup_other (s1 s2 : ℚ) (sel : Option Agent)
    (coordinators solvers : List Agent) (reg : Registry) (a : Agent)
    (k : String) (h : k ≠ a.agent_id) :
    lookupReg (processAgent s1 s2 sel coordinators solvers reg a) k
      = lookupReg reg k := by
  simp [processAgent, lookupReg_setReg_other _ _ _ _ h]

theorem processAgent_nodup (s1 s2 : ℚ) (sel : Option Agent)
    (coordinators solvers : List Agent) (reg : Registry) (a : Agent)
    (h : (regKeys reg).Nodup) :
    (regKeys (processAgent s1 s2 sel coordinators solvers reg a)).Nodup := by
  simp only [processAgent]
  exact nodup_regKeys_setReg _ _ _ h

theorem processAgent_contains_mono (s1 s2 : ℚ) (sel : Option Agent)
    (coordinators solvers : List Agent) (reg : Registry) (a : Agent)
    (k : String) (h : containsKey reg k = true) :
    containsKey (processAgent s1 s2 sel coordinators solvers reg a) k = true := by
  simp only [processAgent]
  exact containsKey_setReg_mono _ _ _ _ h

theorem processAgent_contains_self (s1 s2 : ℚ) (sel : Option Agent)
    (coordinators solvers : List Agent) (reg : Registry) (a : Agent) :
    containsKey (processAgent s1 s2 sel coordinators solvers reg a) a.agent_id
      = true := by
  simp [containsKey, processAgent_lookup_self]

theorem processAgent_immut (s1 s2 : ℚ) (sel : Option Agent)
    (coordinators solvers : List Agent) (reg : Registry) (a : Agent)
    (k : String) (m : Mesh) (h : lookupReg reg k = some m) :
    ∃ m2, lookupReg (processAgent s1 s2 sel coordinators solvers reg a) k
        = some m2 ∧ m2.immut = m.immut := by
  by_cases hk : k = a.agent_id
  · subst hk
    refine ⟨processedMesh s1 s2 sel coordinators solvers reg a,
      processAgent_lookup_self .., ?_⟩
    simp only [processedMesh, h, Option.getD_some]
    rw [applyOverride_immut, updateMesh_immut]
  · exact ⟨m, by rw [processAgent_lookup_other _ _ _ _ _ _ _ _ hk]; exact h, rfl⟩

/-! ### Lemmas about the whole agent loop -/

theorem foldl_pa_nodup (s1 s2 : ℚ) (sel : Option Agent)
    (coordinators solvers : List Agent) (l : List Agent) (reg : Registry)
    (h : (regKeys reg).Nodup) :
    (regKeys (l.foldl (processAgent s1 s2 sel coordinators solvers) reg)).Nodup := by
  induction l generalizing reg with
  | nil => exact h
  | cons b rest ih =>
      exact ih _ (processAgent_nodup s1 s2 sel coordinators solvers reg b h)

theorem foldl_pa_contains_mono (s1 s2 : ℚ) (sel : Option Agent)
    (coordinators solvers : List Agent) (l : List Agent) (reg : Registry)
    (k : String) (h : containsKey reg k = true) :
    containsKey (l.foldl (processAgent s1 s2 sel coordinators solvers) reg) k
      = true := by
  induction l generalizing reg with
  | nil => exact h
  | cons b rest ih =>
      exact ih _ (processAgent_contains_mono s1 s2 sel coordinators solvers reg b k h)

theorem foldl_pa_immut (s1 s2 : ℚ) (sel : Option Agent)
    (coordinators solvers : List Agent) (l : List Agent) (reg : Registry)
    (k : String) (m : Mesh) (h : lookupReg reg k = some m) :
    ∃ m2, lookupReg (l.foldl (processAgent s1 s2 sel coordinators solvers) reg) k
        = some m2 ∧ m2.immut = m.immut := by
  induction l generalizing reg m with
  | nil => exact ⟨m, h, rfl⟩
  | cons b rest ih =>
      obtain ⟨m1, hm1, he1⟩ :=
        processAgent_immut s1 s2 sel coordinators solvers reg b k m h
      obtain ⟨m2, hm2, he2⟩ := ih _ _ hm1
      exact ⟨m2, hm2, he2.trans he1⟩

theorem foldl_pa_contains_of_mem (s1 s2 : ℚ) (sel : Option Agent)
    (coordinators solvers : List Agent) (l : List Agent) (reg : Registry)
    (a : Agent) (ha : a ∈ l) :
    containsKey (l.foldl (processAgent s1 s2 sel coordinators solvers) reg)
      a.agent_id = true := by
  induction l generalizing reg with
  | nil => cases ha
  | cons b rest ih =>
      rcases List.mem_cons.mp ha with hb | hrest
      · subst hb
        exact foldl_pa_contains_mono s1 s2 sel coordinators solvers rest _ _
          (processAgent_contains_self s1 s2 sel coordinators solvers reg a)
      · exact ih _ hrest

theorem foldl_pa_lookup_not_mem (s1 s2 : ℚ) (sel : Option Agent)
    (coordinators solvers : List Agent) (l : List Agent) (reg : Registry)
    (k : String) (h : ∀ x ∈ l, x.agent_id ≠ k) :
    lookupReg (l.foldl (processAgent s1 s2 sel coordinators solvers) reg) k
      = lookupReg reg k := by
  induction l generalizing reg with
  | nil => rfl
  | cons b rest ih =>
      rw [List.foldl_cons, ih _ (fun x hx => h x (List.mem_cons_of_mem b hx)),
        processAgent_lookup_other]
      exact fun e => h b (List.mem_cons_self b rest) e.symm

theorem foldl_pa_lookup_of_mem (s1 s2 : ℚ) (sel : Option Agent)
    (coordinators solvers : List Agent) (l : List Agent) (reg : Registry)
    (a : Agent) (ha : a ∈ l) (hn : (l.map Agent.agent_id).Nodup) :
    lookupReg (l.foldl (processAgent s1 s2 sel coordinators solvers) reg)
        a.agent_id
      = some (processedMesh s1 s2 sel coordinators solvers reg a) := by
  induction l generalizing reg with
  | nil => cases ha
  | cons b rest ih =>
      simp only [List.map_cons, List.nodup_cons] at hn
      rcases List.mem_cons.mp ha with hb | hrest
      · subst hb
        rw [List.foldl_cons,
          foldl_pa_lookup_not_mem s1 s2 sel coordinators solvers rest _ _
            (fun x hx e => hn.1 (by
              rw [← e]; exact List.mem_map_of_mem Agent.agent_id hx)),
          processAgent_lookup_self]
      · have hne : b.agent_id ≠ a.agent_id := by
          intro e
          exact hn.1 (by rw [e]; exact List.mem_map_of_mem Agent.agent_id hrest)
        rw [List.foldl_cons, ih _ hrest hn.2]
        simp only [processedMesh]
        rw [processAgent_lookup_other s1 s2 sel coordinators solvers reg b
          a.agent_id (fun e => hne e.symm)]

/-! ### Lemmas about whole passes and whole sessions -/

theorem reconcile_nodup (p : Pass) (reg : Registry)
    (h : (regKeys reg).Nodup) :
    (regKeys (reconcile p.s1 p.s2 p.sel p.snap reg)).Nodup :=
  foldl_pa_nodup p.s1 p.s2 p.sel p.snap.coordinators p.snap.solvers _ reg h

theorem reconcile_contains_mono (p : Pass) (reg : Registry) (k : String)
    (h : containsKey reg k = true) :
    containsKey (reconcile p.s1 p.s2 p.sel p.snap reg) k = true :=
  foldl_pa_contains_mono p.s1 p.s2 p.sel p.snap.coordinators p.snap.solvers _ reg k h

theorem reconcile_immut (p : Pass) (reg : Registry) (k : String) (m : Mesh)
    (h : lookupReg reg k = some m) :
    ∃ m2, lookupReg (reconcile p.s1 p.s2 p.sel p.snap reg) k = some m2
        ∧ m2.immut = m.immut :=
  foldl_pa_immut p.s1 p.s2 p.sel p.snap.coordinators p.snap.solvers _ reg k m h

theorem reconcile_contains_of_mem (p : Pass) (reg : Registry) (a : Agent)
    (ha : a ∈ p.snap.coordinators ++ p.snap.solvers) :
    containsKey (reconcile p.s1 p.s2 p.sel p.snap reg) a.agent_id = true :=
  foldl_pa_contains_of_mem p.s1 p.s2 p.sel p.snap.coordinators p.snap.solvers _ reg a ha

theorem applyPasses_nodup (run : List Pass) (reg : Registry)
    (h : (regKeys reg).Nodup) :
    (regKeys (applyPasses run reg)).Nodup := by
  induction run generalizing reg with
  | nil => exact h
  | cons p rest ih => exact ih _ (reconcile_nodup p reg h)

theorem applyPasses_contains_mono (run : List Pass) (reg : Registry)
    (k : String) (h : containsKey reg k = true) :
    containsKey (applyPasses run reg) k = true := by
  induction run generalizing reg with
  | nil => exact h
  | cons p rest ih => exact ih _ (reconcile_contains_mono p reg k h)

theorem applyPasses_immut (run : List Pass) (reg : Registry)
    (k : String) (m : Mesh) (h : lookupReg reg k = some m) :
    ∃ m2, lookupReg (applyPasses run reg) k = some m2 ∧ m2.immut = m.immut := by
  induction run generalizing reg m with
  | nil => exact ⟨m, h, rfl⟩
  | cons p rest ih =>
      obtain ⟨m1, hm1, he1⟩ := reconcile_immut p reg k m h
      obtain ⟨m2, hm2, he2⟩ := ih _ _ hm1
      exact ⟨m2, hm2, he2.trans he1⟩

theorem applyPasses_contains_of_pass (run : List Pass) (reg : Registry)
    (p : Pass) (hp : p ∈ run) (a : Agent)
    (ha : a ∈ p.snap.coordinators ++ p.snap.solvers) :
    containsKey (applyPasses run reg) a.agent_id = true := by
  induction run generalizing reg with
  | nil => cases hp
  | cons q rest ih =>
      rcases List.mem_cons.mp hp with hq | hrest
      · subst hq
        exact applyPasses_contains_mono rest _ _
          (reconcile_contains_of_mem p reg a ha)
      · exact ih _ hrest

/-- With the pulse sample bounded by 1 (it is a sine value), a mesh that was
updated by the current pass displays the forced override values exactly when
it belongs to the selected identifier: the activity-driven values are
`0.4 + 0.2*s2 ≤ 0.6` / `0.3 + 0.2*s2` when active and `0.1` / `0` when
idle, never the forced `0.8` pair. -/
theorem updateMesh_emissive (s1 s2 : ℚ) (a : Agent) (m : Mesh) :
    (updateMesh s1 s2 a m).emissiveIntensity =
      if isActiveAgent a then 2/5 + s2 * (1/5) else 1/10 := rfl

theorem updateMesh_ring (s1 s2 : ℚ) (a : Agent) (m : Mesh) :
    (updateMesh s1 s2 a m).ringOpacity =
      if isActiveAgent a then 3/10 + s2 * (1/5) else 0 := rfl

theorem carriesOverride_processedMesh (s1 s2 : ℚ) (hs : s2 ≤ 1) (selA : Agent)
    (coordinators solvers : List Agent) (reg : Registry) (a : Agent) :
    (carriesOverride (processedMesh s1 s2 (some selA) coordinators solvers reg a)
        = true)
      ↔ selA.agent_id = a.agent_id := by
  by_cases h : selA.agent_id = a.agent_id
  · simp [processedMesh, applyOverride, h, carriesOverride]
  · simp only [processedMesh, applyOverride, if_neg h]
    constructor
    · intro hco
      exfalso
      simp only [carriesOverride, Bool.and_eq_true, decide_eq_true_eq,
        updateMesh_emissive, updateMesh_ring] at hco
      rcases hco with ⟨he, hr⟩
      by_cases hact : isActiveAgent a = true
      · rw [if_pos hact] at he
        have hs2 : s2 = 2 := by linarith
        linarith
      · rw [if_neg hact] at he
        norm_num at he
    · intro hco
      exact absurd hco h

/-! ### Projection lemmas used by the claim theorems -/

theorem immut_posRadius (m m2 : Mesh) (h : m2.immut = m.immut) :
    m2.posRadius = m.posRadius :=
  congrArg (fun t => t.2.2.2.2.1) h

theorem immut_posAngle (m m2 : Mesh) (h : m2.immut = m.immut) :
    m2.posAngle = m.posAngle :=
  congrArg (fun t => t.2.2.2.2.2) h

theorem fadeEdge_opacity (now : ℤ) (e : Edge) :
    (fadeEdge now e).opacity = 1 - ((now - e.timestamp : ℤ) : ℚ) / 3000 := rfl

theorem createMesh_posRadius (a : Agent) (c s : List Agent) :
    (createMesh a c s).posRadius =
      if a.role = "coordinator" then 15 else 25 := by
  by_cases h : a.role = "coordinator" <;> simp [createMesh, createMeshCore, h]

theorem createMesh_posAngle (a : Agent) (c s : List Agent) :
    (createMesh a c s).posAngle =
      if a.role = "coordinator"
        then (findIdxT c a.agent_id : ℚ) / (c.length : ℚ)
        else (findIdxT s a.agent_id : ℚ) / (s.length : ℚ) + 1/8 := by
  by_cases h : a.role = "coordinator" <;> simp [createMesh, createMeshCore, h]

/-! ### Claim theorems -/

/-- C1, counterexample: the dedup set is the tracked-edge array itself, and
the expiry sweep removes entries from it; after the edges of the first
occurrence of `txAnn` (ingested at t=1000) have been swept away (ages 3500
and 4000 at the two sweeps), the very same event arriving in a later
snapshot is NOT silently ignored: a fresh set of edges is created.  This
refutes "at most one set of edge visuals is ever created ... over the whole
session". -/
theorem C1_counterexample :
    exEdges1.length = 2 ∧
    sweep 5000 (sweep 4500 exEdges1) = [] ∧
    ingestOne 6000 regCS (sweep 5000 (sweep 4500 exEdges1)) txAnn ≠ [] := by
  decide

/-- C1, amended: deduplication by (sender, timestamp) holds exactly while
some edge with that key is still tracked: an event whose key matches a
tracked edge is silently ignored, in the same or any later snapshot.  (Once
the TTL sweep has removed all edges with the key, the same event spawns a
fresh set, as the counterexample shows.) -/
theorem C1_dedup_while_tracked (now : ℤ) (reg : Registry) (edges : List Edge)
    (tx : Tx)
    (h : (edges.any (fun e =>
        e.txTimestamp = tx.timestamp * 1000 && e.from_ = tx.from_)) = true) :
    ingestOne now reg edges tx = edges := by
  simp [ingestOne, h]

/-- Witness for C1's amended theorem: re-delivering `txAnn` at t=1500, while
its two edges are still tracked, leaves the tracked set unchanged. -/
theorem C1_dedup_while_tracked_witness :
    ((exEdges1.any (fun e =>
        e.txTimestamp = txAnn.timestamp * 1000 && e.from_ = txAnn.from_)) = true) ∧
    ingestOne 1500 regCS exEdges1 txAnn = exEdges1 :=
  ⟨by decide, C1_dedup_while_tracked 1500 regCS exEdges1 txAnn (by decide)⟩

/-- C5, counterexample: an edge's tube material is created with opacity 0.7
(`mkEdge` is the record `ingestOne` pushes per target), but the first
animation tick overwrites it with `1 - age/3000`, which is 29/30 at age
100 ms — the displayed opacity rises from 0.7 to almost 1, so it is not a
monotonically non-increasing function of age from creation onward. -/
theorem C5_counterexample :
    (mkEdge 1000 txAnn).opacity = 7/10 ∧
    sweep 1100 [mkEdge 1000 txAnn] = [fadeEdge 1100 (mkEdge 1000 txAnn)] ∧
    (fadeEdge 1100 (mkEdge 1000 txAnn)).opacity = 29/30 ∧
    (7 : ℚ)/10 < 29/30 := by
  refine ⟨rfl, ?_, ?_, by norm_num⟩
  · have he : expiredB 1100 (mkEdge 1000 txAnn) = false := by decide
    simp [sweep, sweepAux, he]
  · rw [fadeEdge_opacity]
    norm_num [mkEdge]

/-- C5, amended: the edge is created with opacity 0.7; from the first
animation tick onward the displayed opacity is `1 - age/3000`, which is
monotonically non-increasing in age (so it may first jump up from 0.7),
reaches 0 at age exactly 3000 ms, and the sweep removes the edge once its
age strictly exceeds 3000 ms. -/
theorem C5_fade_after_first_tick (e : Edge) (t1 t2 : ℤ) (h12 : t1 ≤ t2) :
    ((fadeEdge t2 e).opacity ≤ (fadeEdge t1 e).opacity) ∧
    (t2 - e.timestamp = 3000 → (fadeEdge t2 e).opacity = 0) ∧
    (3000 < t2 - e.timestamp → sweep t2 [e] = []) := by
  refine ⟨?_, ?_, ?_⟩
  · rw [fadeEdge_opacity, fadeEdge_opacity]
    have hc : ((t1 - e.timestamp : ℤ) : ℚ) ≤ ((t2 - e.timestamp : ℤ) : ℚ) := by
      exact_mod_cast Int.sub_le_sub_right h12 e.timestamp
    have h3 : (0 : ℚ) < 3000 := by norm_num
    have := (div_le_div_iff_of_pos_right h3).mpr hc
    linarith
  · intro h
    rw [fadeEdge_opacity, h]
    norm_num
  · intro h
    have he : expiredB t2 e = true := by
      simp [expiredB, h]
    simp [sweep, sweepAux, he, List.eraseIdx]

/-- Witness for C5's amended theorem at the concrete edge `exEdge`
(created at t=1000), with t1=1100 and t2=4000 (age exactly 3000 ms). -/
theorem C5_fade_after_first_tick_witness :
    ((1100 : ℤ) ≤ 4000) ∧
    (((fadeEdge 4000 exEdge).opacity ≤ (fadeEdge 1100 exEdge).opacity) ∧
      (4000 - exEdge.timestamp = 3000 → (fadeEdge 4000 exEdge).opacity = 0) ∧
      (3000 < 4000 - exEdge.timestamp → sweep 4000 [exEdge] = [])) :=
  ⟨by decide, C5_fade_after_first_tick exEdge 1100 4000 (by decide)⟩

/-- C9: the sweep splices the tracked array while `forEach` advances a
forward index, so of two consecutively stored edges that are both past the
TTL at the same tick (both created at t=1000, swept at t=4500), a single
sweep removes only the first; the second is never examined, stays tracked,
and is removed by a later tick's sweep. -/
theorem C9_splice_skips_next_edge :
    exEdges1.length = 2 ∧
    (exEdges1.all (fun e => expiredB 4500 e)) = true ∧
    (sweep 4500 exEdges1).length = 1 ∧
    sweep 5000 (sweep 4500 exEdges1) = [] := by
  decide

/-- `o = some (o.getD d)` whenever `o` is known to hold a value. -/
theorem eq_some_getD {α : Type} (o : Option α) (d : α) (h : o.isSome = true) :
    o = some (o.getD d) := by
  cases o with
  | none => cases h
  | some v => rfl

theorem lookupReg_mem_values (reg : Registry) (k : String) (m : Mesh)
    (h : lookupReg reg k = some m) : m ∈ reg.map Prod.snd := by
  induction reg with
  | nil => cases h
  | cons p rest ih =>
      obtain ⟨k0, m0⟩ := p
      by_cases h0 : k0 = k
      · simp only [lookupReg, if_pos h0, Option.some.injEq] at h
        simp [h]
      · simp only [lookupReg, if_neg h0] at h
        simp [ih h]

/-- C2: for every sequence of reconciliation passes, the registry keeps
exactly one visual agent object per agent identifier: keys stay pairwise
distinct, an identifier once present is never removed, the object at an
identifier is never replaced (its creation-time part is preserved by every
later pass), and an identifier appearing in any pass's snapshot is present
in the registry from that pass on. -/
theorem C2_registry_identity (run : List Pass) (reg : Registry)
    (h : (regKeys reg).Nodup) :
    (regKeys (applyPasses run reg)).Nodup ∧
    (∀ k, containsKey reg k = true → containsKey (applyPasses run reg) k = true) ∧
    (∀ k m, lookupReg reg k = some m →
      ∃ m2, lookupReg (applyPasses run reg) k = some m2 ∧ m2.immut = m.immut) ∧
    (∀ p ∈ run, ∀ a ∈ p.snap.coordinators ++ p.snap.solvers,
      containsKey (applyPasses run reg) a.agent_id = true) :=
  ⟨applyPasses_nodup run reg h,
   fun k hk => applyPasses_contains_mono run reg k hk,
   fun k m hm => applyPasses_immut run reg k m hm,
   fun p hp a ha => applyPasses_contains_of_pass run reg p hp a ha⟩

/-- Witness for C2 at a concrete run: one pass over the `{A, B}` roster
starting from the empty registry. -/
theorem C2_registry_identity_witness :
    (regKeys ([] : Registry)).Nodup ∧
    (regKeys (applyPasses [⟨0, 0, none, snapAB⟩] [])).Nodup ∧
    containsKey (applyPasses [⟨0, 0, none, snapAB⟩] []) agentA.agent_id = true := by
  have h := C2_registry_identity [⟨0, 0, none, snapAB⟩] [] List.nodup_nil
  refine ⟨List.nodup_nil, h.1, ?_⟩
  exact h.2.2.2 ⟨0, 0, none, snapAB⟩ (List.mem_singleton_self _) agentA (by decide)

/-- C3: an agent's position is assigned once, inside the creation branch: on
the ring of radius 15 for a coordinator and 25 for a solver, at the angle
(in turns) `index / groupSize` — the ordinal index of the identifier within
its role group in the snapshot being reconciled — plus the solver branch's
fixed 1/8-turn offset; a single coordinator lands at angle 0; and every
later reconciliation pass leaves the stored position unchanged. -/
theorem C3_position_assignment (s1 s2 : ℚ) (sel : Option Agent)
    (coordinators solvers : List Agent) (reg : Registry) (a : Agent)
    (hnew : lookupReg reg a.agent_id = none) :
    ∃ m, lookupReg (processAgent s1 s2 sel coordinators solvers reg a)
        a.agent_id = some m ∧
      m.posRadius = (if a.role = "coordinator" then 15 else 25) ∧
      m.posAngle = (if a.role = "coordinator"
          then (findIdxT coordinators a.agent_id : ℚ) / (coordinators.length : ℚ)
          else (findIdxT solvers a.agent_id : ℚ) / (solvers.length : ℚ) + 1/8) ∧
      (a.role = "coordinator" → coordinators = [a] →
        m.posRadius = 15 ∧ m.posAngle = 0) ∧
      (∀ (run : List Pass) (reg2 : Registry),
        lookupReg reg2 a.agent_id = some m →
        ∃ m2, lookupReg (applyPasses run reg2) a.agent_id = some m2 ∧
          m2.posRadius = m.posRadius ∧ m2.posAngle = m.posAngle) := by
  refine ⟨processedMesh s1 s2 sel coordinators solvers reg a,
    processAgent_lookup_self .., ?_, ?_, ?_, ?_⟩
  · have him : (processedMesh s1 s2 sel coordinators solvers reg a).immut
        = (createMesh a coordinators solvers).immut := by
      simp only [processedMesh, hnew, Option.getD_none]
      rw [applyOverride_immut, updateMesh_immut]
    rw [immut_posRadius _ _ him, createMesh_posRadius]
  · have him : (processedMesh s1 s2 sel coordinators solvers reg a).immut
        = (createMesh a coordinators solvers).immut := by
      simp only [processedMesh, hnew, Option.getD_none]
      rw [applyOverride_immut, updateMesh_immut]
    rw [immut_posAngle _ _ him, createMesh_posAngle]
  · intro hrole hsingle
    have him : (processedMesh s1 s2 sel coordinators solvers reg a).immut
        = (createMesh a coordinators solvers).immut := by
      simp only [processedMesh, hnew, Option.getD_none]
      rw [applyOverride_immut, updateMesh_immut]
    constructor
    · rw [immut_posRadius _ _ him, createMesh_posRadius, if_pos hrole]
    · rw [immut_posAngle _ _ him, createMesh_posAngle, if_pos hrole, hsingle]
      have hidx : findIdxT [a] a.agent_id = 0 := by
        simp [findIdxT, List.findIdx?]
      rw [hidx]
      norm_num
  · intro run reg2 hm
    obtain ⟨m2, hm2, he⟩ := applyPasses_immut run reg2 a.agent_id _ hm
    exact ⟨m2, hm2, immut_posRadius _ _ he, immut_posAngle _ _ he⟩

/-- Witness for C3 at a concrete creation: `A` created from a roster whose
coordinator group is `[A]` lands at radius 15, angle 0. -/
theorem C3_position_assignment_witness :
    lookupReg ([] : Registry) agentA.agent_id = none ∧
    ∃ m, lookupReg (processAgent 0 0 none [agentA] [] [] agentA)
        agentA.agent_id = some m ∧ m.posRadius = 15 ∧ m.posAngle = 0 := by
  refine ⟨rfl, ?_⟩
  obtain ⟨m, hm, hrad, hang, hsingle, hpres⟩ :=
    C3_position_assignment 0 0 none [agentA] [] [] agentA rfl
  obtain ⟨h15, h0⟩ := hsingle rfl rfl
  exact ⟨m, hm, h15, h0⟩

/-- C4, counterexample: a snapshot that passes the `swarmData?.agents` guard
but whose coordinator list is `[validEntry, null]` is structurally corrupt,
yet reconciliation of it is not atomic: the valid entry's mesh is written
into the registry before `agent.agent_id` on the `null` entry throws a
TypeError, so the pass aborts with some — but not all — of its additions
applied, and the error is an uncaught exception, not a recoverable event. -/
theorem C4_counterexample :
    (reconcileJS 0 0 none corruptSwarmData []).2 = some JsError.typeError ∧
    (reconcileJS 0 0 none corruptSwarmData []).1 ≠ [] ∧
    regKeys (reconcileJS 0 0 none corruptSwarmData []).1 = ["c1"] := by
  decide

/-- C4, amended: the only structural validation is the
`!swarmData?.agents` guard: when the incoming value is `null`/`undefined`
or its `agents` field is falsy, the pass is skipped with no registry
mutation and no error — a silent no-op rather than a failure surfaced to
the caller.  Corruption deeper than the guard can abort the pass part-way
with a thrown TypeError, retaining the mutations of already-processed
entries (see the counterexample), so per-snapshot atomicity holds only for
guard-detected corruption. -/
theorem C4_guard_skips_silently (s1 s2 : ℚ) (sel : Option Agent)
    (swarmData : JVal) (reg : Registry)
    (h : truthy (agentsField swarmData) = false) :
    reconcileJS s1 s2 sel swarmData reg = (reg, none) := by
  simp [reconcileJS, h]

/-- Witness for C4's amended theorem: an object without an `agents` field is
rejected by the guard and the pass is a silent no-op. -/
theorem C4_guard_skips_silently_witness :
    truthy (agentsField (JVal.obj [])) = false ∧
    reconcileJS 0 0 none (JVal.obj []) [] = ([], none) :=
  ⟨by decide, C4_guard_skips_silently 0 0 none (JVal.obj []) [] (by decide)⟩

/-- C6, counterexample: after the run `exReg1..exReg4` — reconcile `{A,B}`,
pick `A`, reconcile `{B}` (roster shrank) with `A` still selected, pick `B`
— the registry holds TWO meshes displaying the forced override values
(emissive intensity 0.8 and ring opacity 0.8): `B`, the currently selected
agent, and `A`, whose stale override was never cleared because the update
pass only touches agents present in the current snapshot.  This refutes "at
most one visual agent object carries the selection override at every
instant" and "the override on the previously selected object is cleared
within the same pick call". -/
theorem C6_counterexample :
    lookupReg exReg4 "A" = some meshA4 ∧
    lookupReg exReg4 "B" = some meshB4 ∧
    carriesOverride meshA4 = true ∧
    carriesOverride meshB4 = true := by
  refine ⟨?_, ?_, ?_, ?_⟩
  · show lookupReg (reconcile 0 0 (some agentB) snapB exReg3) "A" = _
    rw [show ("A" : String) = agentA.agent_id from rfl]
    simp only [reconcile]
    rw [foldl_pa_lookup_not_mem 0 0 (some agentB) snapB.coordinators
      snapB.solvers _ exReg3 agentA.agent_id (by decide)]
    show lookupReg (reconcile 0 0 (some agentA) snapB exReg2) agentA.agent_id = _
    simp only [reconcile]
    rw [foldl_pa_lookup_not_mem 0 0 (some agentA) snapB.coordinators
      snapB.solvers _ exReg2 agentA.agent_id (by decide)]
    show lookupReg (reconcile 0 0 (some agentA) snapAB exReg1) agentA.agent_id = _
    exact foldl_pa_lookup_of_mem 0 0 (some agentA) snapAB.coordinators
      snapAB.solvers _ exReg1 agentA (by decide) (by decide)
  · show lookupReg (reconcile 0 0 (some agentB) snapB exReg3) "B" = _
    exact foldl_pa_lookup_of_mem 0 0 (some agentB) snapB.coordinators
      snapB.solvers _ exReg3 agentB (by decide) (by decide)
  · exact (carriesOverride_processedMesh 0 0 (by norm_num) agentA
      snapAB.coordinators snapAB.solvers exReg1 agentA).mpr rfl
  · exact (carriesOverride_processedMesh 0 0 (by norm_num) agentB
      snapB.coordinators snapB.solvers exReg3 agentB).mpr rfl

/-- C6, amended: among the meshes the current pass updates (those of agents
present in the incoming snapshot, with pairwise distinct identifiers), the
forced override values are displayed by exactly the mesh of the selected
identifier, the previous holder included — provided the pulse sample is a
genuine sine value (`s2 ≤ 1`).  A previously selected agent that is absent
from the snapshot is not updated and may keep displaying the stale forced
values (see the counterexample). -/
theorem C6_override_within_roster (s1 s2 : ℚ) (hs : s2 ≤ 1) (selA : Agent)
    (snap : Snapshot) (reg : Registry)
    (hn : ((snap.coordinators ++ snap.solvers).map Agent.agent_id).Nodup)
    (a : Agent) (ha : a ∈ snap.coordinators ++ snap.solvers) :
    ∃ m, lookupReg (reconcile s1 s2 (some selA) snap reg) a.agent_id = some m ∧
      (carriesOverride m = true ↔ selA.agent_id = a.agent_id) :=
  ⟨processedMesh s1 s2 (some selA) snap.coordinators snap.solvers reg a,
   foldl_pa_lookup_of_mem s1 s2 (some selA) snap.coordinators snap.solvers
     _ reg a ha hn,
   carriesOverride_processedMesh s1 s2 hs selA snap.coordinators
     snap.solvers reg a⟩

/-- Witness for C6's amended theorem: reconciling `{A, B}` with `A`
selected gives `A`'s mesh the override. -/
theorem C6_override_within_roster_witness :
    ((0 : ℚ) ≤ 1) ∧
    ((snapAB.coordinators ++ snapAB.solvers).map Agent.agent_id).Nodup ∧
    agentA ∈ snapAB.coordinators ++ snapAB.solvers ∧
    ∃ m, lookupReg (reconcile 0 0 (some agentA) snapAB []) agentA.agent_id
        = some m ∧
      (carriesOverride m = true ↔ agentA.agent_id = agentA.agent_id) :=
  ⟨by norm_num, by decide, by decide,
   C6_override_within_roster 0 0 (by norm_num) agentA snapAB [] (by decide)
     agentA (by decide)⟩

/-- C7: for an event whose sender has a registered mesh and whose dedup key
is new, ingest appends exactly one edge per resolved target: for a
task announcement, one edge per registered solver-role mesh (broadcast,
each colored the announcement green 0x00ff88); for any other kind, one
edge per registered coordinator-role mesh other than the sender's own. -/
theorem C7_broadcast_targets (now : ℤ) (reg : Registry) (edges : List Edge)
    (tx : Tx)
    (hhit : containsKey reg tx.from_ = true)
    (hfresh : (edges.any (fun e =>
        e.txTimestamp = tx.timestamp * 1000 && e.from_ = tx.from_)) = false) :
    ingestOne now reg edges tx
        = edges ++ (targetMeshes reg tx).map (fun _t => mkEdge now tx) ∧
    (tx.msg_type = "task_announcement" →
      (ingestOne now reg edges tx).length = edges.length
          + (reg.filter (fun p => p.2.agentData.role = "solver")).length ∧
      ∀ e ∈ (targetMeshes reg tx).map (fun _t => mkEdge now tx),
        e.color = 0x00ff88) ∧
    (tx.msg_type ≠ "task_announcement" →
      (ingestOne now reg edges tx).length = edges.length
          + (reg.filter (fun p =>
              p.2.agentData.role = "coordinator" && p.1 ≠ tx.from_)).length) := by
  obtain ⟨m, hl⟩ := (containsKey_lookupReg reg tx.from_).mp hhit
  have hmain : ingestOne now reg edges tx
      = edges ++ (targetMeshes reg tx).map (fun _t => mkEdge now tx) := by
    simp [ingestOne, hfresh, hl]
  refine ⟨hmain, ?_, ?_⟩
  · intro hann
    constructor
    · rw [hmain, List.length_append, List.length_map, targetMeshes,
        if_pos hann, List.length_map]
    · intro e he
      simp only [List.mem_map] at he
      obtain ⟨t, ht, he⟩ := he
      rw [← he]
      simp [mkEdge, msgColor, hann]
  · intro hother
    rw [hmain, List.length_append, List.length_map, targetMeshes,
      if_neg hother, List.length_map]

/-- Witness for C7 at Scenario 3: the announcement from `A` with two known
solvers spawns exactly two edges. -/
theorem C7_broadcast_targets_witness :
    containsKey regCS txAnn.from_ = true ∧
    (ingestOne 1000 regCS [] txAnn).length = 2 := by
  refine ⟨by decide, ?_⟩
  have h := (C7_broadcast_targets 1000 regCS [] txAnn (by decide)
    (by decide)).2.1 (by decide)
  rw [h.1]
  decide

/-- C8: a pick either hits a registered mesh — the raycast intersects only
registry meshes — and then returns that mesh's stored agent snapshot as the
new selection, or misses everything and clears the selection; against an
empty registry no mesh can be hit, so a pick is a total no-op returning no
selection. -/
theorem C8_pick (reg : Registry) (hit : Option Mesh) (sel : Option Agent)
    (hhit : ∀ m, hit = some m → m ∈ reg.map Prod.snd) :
    ((∃ m, hit = some m ∧ handleClick reg hit sel = some m.agentData) ∨
      (hit = none ∧ handleClick reg hit sel = none)) ∧
    (reg = [] → handleClick reg hit sel = none) := by
  constructor
  · cases hit with
    | some m => exact Or.inl ⟨m, rfl, rfl⟩
    | none => exact Or.inr ⟨rfl, rfl⟩
  · intro hreg
    cases hit with
    | some m =>
        subst hreg
        exact absurd (hhit m rfl) (by simp)
    | none => rfl

/-- Witness for C8: picking the registered mesh of `A` selects `A`'s
snapshot; a miss with a selection standing clears it; a pick against the
empty registry returns no selection. -/
theorem C8_pick_witness :
    lookupReg regCS "A" = some meshA ∧
    handleClick regCS (some meshA) none = some meshA.agentData ∧
    handleClick regCS none (some meshA.agentData) = none ∧
    handleClick [] none none = none := by
  have hlk : lookupReg regCS "A" = some meshA :=
    eq_some_getD _ _ (by decide)
  have h1 : ∀ m, some meshA = some m → m ∈ regCS.map Prod.snd := by
    intro m hm
    injection hm with hm
    rw [← hm]
    exact lookupReg_mem_values regCS "A" meshA hlk
  refine ⟨hlk, ?_, ?_, ?_⟩
  · rcases (C8_pick regCS (some meshA) none h1).1 with ⟨m, hm, hres⟩ | ⟨hnone, _⟩
    · injection hm with hm
      rw [← hm] at hres
      exact hres
    · cases hnone
  · rcases (C8_pick regCS none (some meshA.agentData)
        (fun m h => by cases h)).1 with ⟨m, hm, _⟩ | ⟨_, hres⟩
    · cases hm
    · exact hres
  · exact (C8_pick [] none none (fun m h => by cases h)).2 rfl

/-- C10: an event whose sender has no registered mesh is skipped entirely —
no edges are created and, because the dedup set is the tracked-edge list
itself and nothing was pushed, its dedup key is not recorded; the same
event delivered again once the sender's mesh exists (and while no tracked
edge carries its key) spawns one edge per resolved target. -/
theorem C10_unknown_sender_skipped (now later : ℤ)
    (reg regLater : Registry) (edges : List Edge) (tx : Tx)
    (hmiss : lookupReg reg tx.from_ = none)
    (hhit : containsKey regLater tx.from_ = true)
    (hfresh : (edges.any (fun e =>
        e.txTimestamp = tx.timestamp * 1000 && e.from_ = tx.from_)) = false) :
    ingestOne now reg edges tx = edges ∧
    ingestOne later regLater edges tx
        = edges ++ (targetMeshes regLater tx).map (fun _t => mkEdge later tx) := by
  obtain ⟨m, hl⟩ := (containsKey_lookupReg regLater tx.from_).mp hhit
  constructor
  · simp [ingestOne, hfresh, hmiss]
  · simp [ingestOne, hfresh, hl]

/-- Witness for C10: `txAnn` delivered while the registry is empty is
skipped; redelivered once `regCS` knows the sender, it spawns its two
edges. -/
theorem C10_unknown_sender_skipped_witness :
    lookupReg ([] : Registry) txAnn.from_ = none ∧
    ingestOne 1000 [] [] txAnn = [] ∧
    (ingestOne 6000 regCS [] txAnn).length = 2 := by
  have h := C10_unknown_sender_skipped 1000 6000 [] regCS [] txAnn rfl
    (by decide) (by decide)
  refine ⟨rfl, h.1, ?_⟩
  rw [h.2]
  decide

end Swarm

